import Mathlib

/-!
Verification of the Study Resources LMS backend's validation and auth core.

Strings are modelled as `List Char`; each definition below is a direct
translation of the corresponding Python function in `backend/validators.py`,
`backend/schemas.py`, `backend/auth.py` or `backend/routes/auth.py`.
-/

set_option maxHeartbeats 1000000

/-- Characters stripped by Python's `str.strip()` on ASCII-range text
(space, tab, newline, carriage return, vertical tab, form feed, the
file/group/record/unit separators 0x1c-0x1f, and U+0085). -/
def isPySpace (c : Char) : Bool :=
  c.toNat = 32 || c.toNat = 9 || c.toNat = 10 || c.toNat = 13 ||
  c.toNat = 11 || c.toNat = 12 || (28 ≤ c.toNat && c.toNat ≤ 31) || c.toNat = 133

/-- Python `str.strip()`: drop leading and trailing whitespace. -/
def pyStrip (l : List Char) : List Char :=
  (((l.dropWhile isPySpace).reverse.dropWhile isPySpace)).reverse

/-- Python `str.lower()` restricted to the ASCII range (the inputs the
claims quantify over); maps A-Z to a-z and fixes everything else. -/
def pyLowerChar (c : Char) : Char :=
  if 65 ≤ c.toNat && c.toNat ≤ 90 then Char.ofNat (c.toNat + 32) else c

/-- Python `str.lower()` on a character list. -/
def pyLower (l : List Char) : List Char := l.map pyLowerChar

def nullChar : Char := Char.ofNat 0
def quoteChar : Char := Char.ofNat 34
def aposChar : Char := Char.ofNat 39
def nlChar : Char := Char.ofNat 10

/-- One step of Python `html.escape(value)` (quote=True): the net effect of
its sequential `str.replace` calls is this character-wise expansion. -/
def htmlEscapeChar (c : Char) : List Char :=
  if c = '&' then ("&amp;").data
  else if c = '<' then ("&lt;").data
  else if c = '>' then ("&gt;").data
  else if c = quoteChar then ("&quot;").data
  else if c = aposChar then ("&#x27;").data
  else [c]

/-- Python `html.escape(value)` with default quoting. -/
def htmlEscape (l : List Char) : List Char := l.flatMap htmlEscapeChar

/-- Python `value.replace(chr(0), str())`: delete all null bytes. -/
def removeNull (l : List Char) : List Char := l.filter (fun c => c ≠ nullChar)

/-- `sanitize_string(value, max_length)` from `backend/schemas.py`
(lines 17-24); identical to the `allow_html=False` path of
`sanitize_string` in `backend/validators.py` (lines 40-68):
empty in, empty out; else strip, truncate, HTML-escape, drop nulls. -/
def sanitize_string (value : List Char) (maxLength : Nat) : List Char :=
  if value = [] then []
  else removeNull (htmlEscape ((pyStrip value).take maxLength))

/-- `sanitize_text(value, max_length=5000)` from `backend/validators.py`
(lines 71-73): `sanitize_string` with `allow_html=False`. -/
def sanitize_text (value : List Char) : List Char := sanitize_string value 5000

/-- Python `s.startswith(t)` on character lists. -/
def startsWithL : List Char → List Char → Bool
  | _, [] => true
  | [], _ :: _ => false
  | c :: s, d :: t => c = d && startsWithL s t

/-- Python `t in s` substring containment on character lists. -/
def containsL : List Char → List Char → Bool
  | [], t => startsWithL [] t
  | c :: s', t => startsWithL (c :: s') t || containsL s' t

/-- ASCII character class of the regex `[A-Z]` (Python `re` on str,
no Unicode letters occur in the claims' inputs). -/
def reUpper (c : Char) : Bool := 65 ≤ c.toNat && c.toNat ≤ 90

/-- ASCII character class of the regex `[a-z]`. -/
def reLower (c : Char) : Bool := 97 ≤ c.toNat && c.toNat ≤ 122

/-- ASCII character class of the regex `\d` (decimal digits). -/
def reDigit (c : Char) : Bool := 48 ≤ c.toNat && c.toNat ≤ 57

/-- `RegisterRequest.validate_password` from `backend/auth.py` (lines 54-67);
`PasswordChangeRequest.validate_new_password` (lines 112-125) is identical.
Errors model the raised `ValueError`s. -/
def validate_password (v : List Char) : Except String (List Char) :=
  if v.length < 8 then .error ("Password must be at least 8 characters")
  else if 128 < v.length then .error ("Password too long")
  else if v.any reUpper = false then
    .error ("Password must contain at least one uppercase letter")
  else if v.any reLower = false then
    .error ("Password must contain at least one lowercase letter")
  else if v.any reDigit = false then
    .error ("Password must contain at least one number")
  else .ok v

/-- `RegisterRequest.validate_role` from `backend/auth.py` (lines 82-88):
only the roles student and tutor are accepted at registration. -/
def registerValidateRole (v : String) : Except String String :=
  if v ∉ (["student", "tutor"] : List String) then
    .error ("Role must be one of the allowed roles")
  else .ok v

/-- `validate_role` from `backend/validators.py` (lines 239-244):
the standalone enum check also allows admin. -/
def validate_role (role : String) : Option String :=
  if role ∈ (["student", "tutor", "admin"] : List String) then some role else none

/-- C5: `validate_password` rejects every password shorter than 8 or missing
an upper-case letter, a lower-case letter, or a digit, and accepts every
password of length 8-128 containing all three classes. -/
theorem validate_password_spec (v : List Char) :
    ((v.length < 8 ∨ v.any reUpper = false ∨ v.any reLower = false ∨
        v.any reDigit = false) → ∃ e, validate_password v = .error e) ∧
    ((8 ≤ v.length ∧ v.length ≤ 128 ∧ v.any reUpper = true ∧
        v.any reLower = true ∧ v.any reDigit = true) →
      validate_password v = .ok v) := by
  constructor
  · intro h
    unfold validate_password
    by_cases h1 : v.length < 8
    · simp [h1]
    · by_cases h2 : 128 < v.length
      · simp [h1, h2]
      · by_cases h3 : v.any reUpper = false
        · simp [h1, h2, h3]
        · by_cases h4 : v.any reLower = false
          · simp [h1, h2, h3, h4]
          · by_cases h5 : v.any reDigit = false
            · simp [h1, h2, h3, h4, h5]
            · rcases h with h | h | h | h <;> simp_all
  · rintro ⟨h1, h2, h3, h4, h5⟩
    unfold validate_password
    have n1 : ¬ v.length < 8 := by omega
    have n2 : ¬ 128 < v.length := by omega
    simp [n1, n2, h3, h4, h5]

/-- C5 witness: the password Abcdefg1 is accepted and the password short
is rejected. -/
theorem validate_password_spec_witness :
    validate_password (("Abcdefg1").data) = .ok (("Abcdefg1").data) ∧
    (∃ e, validate_password (("short").data) = .error e) :=
  ⟨(validate_password_spec (("Abcdefg1").data)).2
      (by refine ⟨by decide, by decide, by decide, by decide, by decide⟩),
   (validate_password_spec (("short").data)).1 (Or.inl (by decide))⟩

/-- C9: registration accepts exactly the roles student and tutor — the
role admin is rejected by `RegisterRequest.validate_role` even though the
standalone `validate_role` enum check accepts it. -/
theorem register_role_excludes_admin :
    (∃ e, registerValidateRole ("admin") = .error e) ∧
    validate_role ("admin") = some ("admin") ∧
    (∀ r, (∃ x, registerValidateRole r = .ok x) ↔
      (r = "student" ∨ r = "tutor")) := by
  refine ⟨⟨("Role must be one of the allowed roles"), by simp [registerValidateRole]⟩,
    by simp [validate_role], ?_⟩
  intro r
  constructor
  · rintro ⟨x, hx⟩
    unfold registerValidateRole at hx
    by_cases h : r ∈ (["student", "tutor"] : List String)
    · simpa using h
    · simp [h] at hx
  · rintro (rfl | rfl)
    · exact ⟨("student"), by simp [registerValidateRole]⟩
    · exact ⟨("tutor"), by simp [registerValidateRole]⟩

/-- C9 witness: the theorem applied at the concrete role student. -/
theorem register_role_excludes_admin_witness :
    ∃ x, registerValidateRole ("student") = .ok x :=
  (register_role_excludes_admin.2.2 ("student")).mpr (Or.inl rfl)

/-- C10: truncation happens before HTML-escaping, so `sanitize_string` can
return a string strictly longer than `max_length`: the one-character input
consisting of a less-than sign with `max_length = 1` comes back as the
four-character entity. -/
theorem sanitize_string_exceeds_max_length :
    sanitize_string ['<'] 1 = ("&lt;").data ∧
    1 < (sanitize_string ['<'] 1).length := by
  constructor <;> decide

/-- The five characters rewritten by `html.escape` with default quoting. -/
def isMarkupChar (c : Char) : Bool :=
  c = '&' || c = '<' || c = '>' || c = quoteChar || c = aposChar

theorem escapeChar_eq_self {c : Char} (hc : isMarkupChar c = false) :
    htmlEscapeChar c = [c] := by
  unfold isMarkupChar at hc
  simp only [Bool.or_eq_false_iff, decide_eq_false_iff_not] at hc
  unfold htmlEscapeChar
  rw [if_neg hc.1.1.1.1, if_neg hc.1.1.1.2, if_neg hc.1.1.2, if_neg hc.1.2, if_neg hc.2]

theorem htmlEscape_eq_self {l : List Char} (h : ∀ c ∈ l, htmlEscapeChar c = [c]) :
    htmlEscape l = l := by
  induction l with
  | nil => rfl
  | cons c t ih =>
    unfold htmlEscape at *
    rw [List.flatMap_cons, h c (by simp), ih (fun d hd => h d (by simp [hd]))]
    rfl

theorem removeNull_eq_self {l : List Char} (h : ∀ c ∈ l, c ≠ nullChar) :
    removeNull l = l :=
  List.filter_eq_self.mpr (by simpa using h)

theorem dropWhile_dropWhile (p : Char → Bool) (l : List Char) :
    (l.dropWhile p).dropWhile p = l.dropWhile p := by
  induction l with
  | nil => rfl
  | cons c t ih =>
    by_cases hc : p c
    · rw [List.dropWhile_cons_of_pos hc, ih]
    · rw [List.dropWhile_cons_of_neg hc, List.dropWhile_cons_of_neg hc]

theorem dropWhile_append_cons (p : Char → Bool) {c : Char} (hc : p c = false)
    (xs t : List Char) :
    (xs ++ c :: t).dropWhile p = xs.dropWhile p ++ c :: t := by
  induction xs with
  | nil =>
    simp only [List.nil_append, List.dropWhile_nil]
    exact List.dropWhile_cons_of_neg (by simp [hc])
  | cons x xs ih =>
    by_cases hx : p x
    · rw [List.cons_append, List.dropWhile_cons_of_pos hx,
        List.dropWhile_cons_of_pos hx, ih]
    · rw [List.cons_append, List.dropWhile_cons_of_neg hx,
        List.dropWhile_cons_of_neg hx, List.cons_append]

theorem dropWhile_head_false {p : Char → Bool} {l t : List Char} {c : Char}
    (h : l.dropWhile p = c :: t) : p c = false := by
  have hne : l.dropWhile p ≠ [] := by simp [h]
  have := List.head_dropWhile_not p l hne
  rwa [show (l.dropWhile p).head hne = c from by simp [h]] at this

theorem pyStrip_idem (l : List Char) : pyStrip (pyStrip l) = pyStrip l := by
  unfold pyStrip
  set A := l.dropWhile isPySpace with hA
  set B := (A.reverse.dropWhile isPySpace).reverse with hB
  have hBrev : B.reverse.dropWhile isPySpace = B.reverse := by
    rw [hB, List.reverse_reverse, dropWhile_dropWhile]
  have hBdrop : B.dropWhile isPySpace = B := by
    rcases hA2 : A with _ | ⟨c, t⟩
    · simp [hB, hA2]
    · have hc : isPySpace c = false := dropWhile_head_false (hA ▸ hA2)
      have : B = c :: (t.reverse.dropWhile isPySpace).reverse := by
        rw [hB, hA2, List.reverse_cons, dropWhile_append_cons isPySpace hc,
          List.reverse_append]
        rfl
      rw [this]
      exact List.dropWhile_cons_of_neg (by simp [hc])
  rw [hBdrop, hBrev, List.reverse_reverse]

theorem pyStrip_subset {l : List Char} {c : Char} (h : c ∈ pyStrip l) : c ∈ l := by
  unfold pyStrip at h
  rw [List.mem_reverse] at h
  have h2 := (List.dropWhile_sublist _).subset h
  rw [List.mem_reverse] at h2
  exact (List.dropWhile_sublist _).subset h2

/-- C6 (amended): `sanitize_text` is idempotent on ASCII text free of the
HTML-markup characters and of null bytes, provided the whitespace-stripped
input fits within the 5000-character limit. -/
theorem sanitize_text_idem (v : List Char)
    (hchar : ∀ c ∈ v, c.toNat ≤ 127 ∧ isMarkupChar c = false ∧ c ≠ nullChar)
    (hlen : (pyStrip v).length ≤ 5000) :
    sanitize_text (sanitize_text v) = sanitize_text v := by
  have hsub : ∀ c, c ∈ pyStrip v → c ∈ v := fun c hc => pyStrip_subset hc
  have hesc : htmlEscape (pyStrip v) = pyStrip v :=
    htmlEscape_eq_self (fun c hc => escapeChar_eq_self (hchar c (hsub c hc)).2.1)
  have hnull : removeNull (pyStrip v) = pyStrip v :=
    removeNull_eq_self (fun c hc => (hchar c (hsub c hc)).2.2)
  by_cases hv : v = []
  · subst hv; rfl
  · have hs : sanitize_text v = pyStrip v := by
      unfold sanitize_text sanitize_string
      rw [if_neg hv, List.take_of_length_le hlen, hesc, hnull]
    rw [hs]
    by_cases hps : pyStrip v = []
    · rw [hps]; rfl
    · unfold sanitize_text sanitize_string
      rw [if_neg hps, pyStrip_idem, List.take_of_length_le hlen, hesc, hnull]

/-- C6 witness: the amended idempotence applied to the short string a b. -/
theorem sanitize_text_idem_witness :
    sanitize_text (sanitize_text (("a b").data)) = sanitize_text (("a b").data) :=
  sanitize_text_idem (("a b").data) (by decide) (by decide)

/-- Counterexample input for the claim as stated: 4999 letters, a space,
then a letter — ASCII with no markup characters, but 5001 characters long. -/
def c6Input : List Char := List.replicate 4999 'a' ++ [' ', 'b']

theorem c6Input_eq : c6Input = 'a' :: ((List.replicate 4998 'a' ++ [' ']) ++ ['b']) := by
  unfold c6Input
  rw [show (4999 : Nat) = 4998 + 1 from by norm_num, List.replicate_succ]
  simp only [List.cons_append, List.append_assoc, List.singleton_append,
    List.nil_append]

theorem pyStrip_no_ends {c d : Char} (m : List Char)
    (hc : isPySpace c = false) (hd : isPySpace d = false) :
    pyStrip (c :: (m ++ [d])) = c :: (m ++ [d]) := by
  unfold pyStrip
  rw [List.dropWhile_cons_of_neg (by simp [hc])]
  rw [show (c :: (m ++ [d])).reverse = d :: (m.reverse ++ [c]) from by simp]
  rw [List.dropWhile_cons_of_neg (by simp [hd])]
  simp

theorem c6_first : sanitize_text c6Input = List.replicate 4999 'a' ++ [' '] := by
  have hne : c6Input ≠ [] := by rw [c6Input_eq]; exact List.cons_ne_nil _ _
  have hstrip : pyStrip c6Input = c6Input := by
    rw [c6Input_eq]
    exact pyStrip_no_ends _ (by decide) (by decide)
  unfold sanitize_text sanitize_string
  rw [if_neg hne, hstrip]
  have htake : c6Input.take 5000 = List.replicate 4999 'a' ++ [' '] := by
    unfold c6Input
    rw [List.take_append_eq_append_take,
      List.take_of_length_le (by rw [List.length_replicate]; norm_num),
      List.length_replicate, show (5000 - 4999 : Nat) = 1 from by norm_num,
      show List.take 1 [' ', 'b'] = [' '] from rfl]
  rw [htake]
  have hmem : ∀ c ∈ List.replicate 4999 'a' ++ [' '], c = 'a' ∨ c = ' ' := by
    intro c hc
    rcases List.mem_append.mp hc with h | h
    · exact Or.inl (List.eq_of_mem_replicate h)
    · simp at h; exact Or.inr h
  rw [htmlEscape_eq_self (fun c hc => by
      rcases hmem c hc with rfl | rfl <;> decide),
    removeNull_eq_self (fun c hc => by
      rcases hmem c hc with rfl | rfl <;> decide)]

theorem c6_second :
    sanitize_text (List.replicate 4999 'a' ++ [' ']) = List.replicate 4999 'a' := by
  have hne : List.replicate 4999 'a' ++ [' '] ≠ ([] : List Char) := by
    intro h
    exact List.cons_ne_nil ' ' [] (List.append_eq_nil.mp h).2
  have hstrip : pyStrip (List.replicate 4999 'a' ++ [' ']) = List.replicate 4999 'a' := by
    unfold pyStrip
    have h1 : (List.replicate 4999 'a' ++ [' ']).dropWhile isPySpace =
        List.replicate 4999 'a' ++ [' '] := by
      rw [show (4999 : Nat) = 4998 + 1 from by norm_num, List.replicate_succ,
        List.cons_append]
      exact List.dropWhile_cons_of_neg (by decide)
    rw [h1, List.reverse_append, List.reverse_replicate]
    rw [show ([' '] : List Char).reverse ++ List.replicate 4999 'a' =
        ' ' :: List.replicate 4999 'a' from by
      rw [List.reverse_singleton, List.singleton_append]]
    rw [List.dropWhile_cons_of_pos (by decide)]
    rw [show (4999 : Nat) = 4998 + 1 from by norm_num, List.replicate_succ,
      List.dropWhile_cons_of_neg (by decide), ← List.replicate_succ,
      List.reverse_replicate]
  unfold sanitize_text sanitize_string
  rw [if_neg hne, hstrip,
    List.take_of_length_le (by rw [List.length_replicate]; norm_num)]
  rw [htmlEscape_eq_self (fun c hc => by
      rw [List.eq_of_mem_replicate hc]; decide),
    removeNull_eq_self (fun c hc => by
      rw [List.eq_of_mem_replicate hc]; decide)]

/-- C6 counterexample: `c6Input` is ASCII with no markup characters and no
null bytes, yet applying `sanitize_text` twice differs from applying it
once — truncation to the 5000-character limit exposes a trailing space that
only the second application strips. -/
theorem sanitize_text_not_idempotent :
    c6Input.all (fun c => decide (c.toNat ≤ 127) && !(isMarkupChar c)
      && !(c == nullChar)) = true ∧
    sanitize_text (sanitize_text c6Input) ≠ sanitize_text c6Input := by
  constructor
  · rw [List.all_eq_true]
    intro c hc
    unfold c6Input at hc
    rcases List.mem_append.mp hc with h | h
    · rw [List.eq_of_mem_replicate h]
      decide
    · simp only [List.mem_cons, List.not_mem_nil, or_false] at h
      rcases h with rfl | rfl
      · decide
      · decide
  · rw [c6_first, c6_second]
    intro h
    have hlen := congrArg List.length h
    simp only [List.length_append, List.length_replicate, List.length_cons,
      List.length_nil] at hlen
    omega

theorem startsWithL_iff (s t : List Char) :
    startsWithL s t = true ↔ ∃ v, s = t ++ v := by
  induction t generalizing s with
  | nil => simp [startsWithL]
  | cons d t' ih =>
    cases s with
    | nil =>
      simp only [startsWithL, List.cons_append]
      constructor
      · intro h; cases h
      · rintro ⟨v, h⟩; cases h
    | cons c s' =>
      simp only [startsWithL, Bool.and_eq_true, decide_eq_true_eq, ih,
        List.cons_append]
      constructor
      · rintro ⟨rfl, v, rfl⟩; exact ⟨v, rfl⟩
      · rintro ⟨v, h⟩
        injection h with h1 h2
        exact ⟨h1, v, h2⟩

theorem containsL_iff (s t : List Char) :
    containsL s t = true ↔ ∃ u v, s = u ++ (t ++ v) := by
  induction s with
  | nil =>
    cases t with
    | nil => simp [containsL, startsWithL]
    | cons d t' =>
      simp only [containsL, startsWithL]
      constructor
      · intro h; cases h
      · rintro ⟨u, v, h⟩
        rcases u with _ | ⟨x, u'⟩ <;> simp_all
  | cons c s' ih =>
    simp only [containsL, Bool.or_eq_true, startsWithL_iff, ih]
    constructor
    · rintro (⟨v, hv⟩ | ⟨u, v, hv⟩)
      · exact ⟨[], v, by simpa using hv⟩
      · exact ⟨c :: u, v, by rw [hv, List.cons_append]⟩
    · rintro ⟨u, v, h⟩
      rcases u with _ | ⟨x, u'⟩
      · exact Or.inl ⟨v, by simpa using h⟩
      · injection h with h1 h2
        exact Or.inr ⟨u', v, h2⟩

theorem containsL_mono_right {s t t' : List Char}
    (h : containsL s (t ++ t') = true) : containsL s t = true := by
  obtain ⟨u, v, rfl⟩ := (containsL_iff _ _).mp h
  exact (containsL_iff _ _).mpr ⟨u, t' ++ v, by simp only [List.append_assoc]⟩

theorem dropWhile_mid (p : Char → Bool) (u v : List Char) {t : List Char}
    {c : Char} {t2 : List Char} (ht : t = c :: t2) (hc : p c = false) :
    (u ++ (t ++ v)).dropWhile p = u.dropWhile p ++ (t ++ v) := by
  subst ht
  rw [List.cons_append]
  exact dropWhile_append_cons p hc u (t2 ++ v)

theorem pyStrip_mid {s t : List Char} (hne : t ≠ [])
    (hws : ∀ c ∈ t, isPySpace c = false) (u v : List Char)
    (hs : s = u ++ (t ++ v)) : ∃ u2 v2, pyStrip s = u2 ++ (t ++ v2) := by
  obtain ⟨c, t2, ht⟩ : ∃ c t2, t = c :: t2 := by
    cases t with
    | nil => exact absurd rfl hne
    | cons c t2 => exact ⟨c, t2, rfl⟩
  have hc : isPySpace c = false := hws c (by rw [ht]; exact List.mem_cons_self c t2)
  obtain ⟨d, w, htr⟩ : ∃ d w, t.reverse = d :: w := by
    rcases hr : t.reverse with _ | ⟨d, w⟩
    · exact absurd (by simpa using congrArg List.reverse hr) hne
    · exact ⟨d, w, rfl⟩
  have hd : isPySpace d = false :=
    hws d (List.mem_reverse.mp (by rw [htr]; exact List.mem_cons_self d w))
  have h1 : s.dropWhile isPySpace = u.dropWhile isPySpace ++ (t ++ v) := by
    rw [hs]; exact dropWhile_mid _ u v ht hc
  refine ⟨u.dropWhile isPySpace, (v.reverse.dropWhile isPySpace).reverse, ?_⟩
  unfold pyStrip
  rw [h1]
  rw [show (u.dropWhile isPySpace ++ (t ++ v)).reverse
      = v.reverse ++ (t.reverse ++ (u.dropWhile isPySpace).reverse) from by
    simp only [List.reverse_append, List.append_assoc]]
  rw [dropWhile_mid _ v.reverse (u.dropWhile isPySpace).reverse htr hd]
  simp only [List.reverse_append, List.reverse_reverse, List.append_assoc]

theorem containsL_pyStrip {s t : List Char} (h : containsL s t = true)
    (hne : t ≠ []) (hws : ∀ c ∈ t, isPySpace c = false) :
    containsL (pyStrip s) t = true := by
  obtain ⟨u, v, hs⟩ := (containsL_iff _ _).mp h
  obtain ⟨u2, v2, h2⟩ := pyStrip_mid hne hws u v hs
  exact (containsL_iff _ _).mpr ⟨u2, v2, h2⟩

theorem map_fix {l : List Char} {f : Char → Char} (h : ∀ c ∈ l, f c = c) :
    l.map f = l := by
  induction l with
  | nil => rfl
  | cons c t ih =>
    rw [List.map_cons, h c (by simp), ih (fun d hd => h d (by simp [hd]))]

theorem containsL_pyLower {s t : List Char} (h : containsL s t = true)
    (hfix : ∀ c ∈ t, pyLowerChar c = c) : containsL (pyLower s) t = true := by
  obtain ⟨u, v, rfl⟩ := (containsL_iff _ _).mp h
  refine (containsL_iff _ _).mpr ⟨pyLower u, pyLower v, ?_⟩
  unfold pyLower
  rw [List.map_append, List.map_append, map_fix hfix]

/-- The denylist checked by `validate_url` in `backend/schemas.py` (line 38). -/
def urlDangerous : List (List Char) :=
  [("javascript:").data, ("data:").data, ("vbscript:").data, ("<script").data,
   ("onclick").data, ("onerror").data, ("onload").data]

/-- `validate_url` from `backend/schemas.py` (lines 27-42): empty passes
through; else the stripped value must start with http:// or https:// and
must not contain (case-folded) any denylisted substring. -/
def validate_url (url : List Char) : Except String (List Char) :=
  if url = [] then .ok []
  else if (startsWithL (pyStrip url) (("http://").data)
      || startsWithL (pyStrip url) (("https://").data)) = false then
    .error ("URL must start with http:// or https://")
  else if urlDangerous.any (fun d => containsL (pyLower (pyStrip url)) d) then
    .error ("Invalid URL - contains dangerous patterns")
  else .ok (pyStrip url)

theorem validate_url_rejects_dangerous {s d : List Char}
    (hdmem : d ∈ urlDangerous) (hcont : containsL s d = true) :
    ∃ e, validate_url s = .error e := by
  have hprops := (show ∀ d ∈ urlDangerous, d ≠ [] ∧
      (∀ c ∈ d, isPySpace c = false) ∧ (∀ c ∈ d, pyLowerChar c = c) from by
    decide) d hdmem
  have hlower := containsL_pyLower
    (containsL_pyStrip hcont hprops.1 hprops.2.1) hprops.2.2
  have hsne : s ≠ [] := by
    rintro rfl
    rcases hd2 : d with _ | ⟨c, t⟩
    · exact hprops.1 hd2
    · rw [hd2] at hcont
      simp [containsL, startsWithL] at hcont
  unfold validate_url
  rw [if_neg hsne]
  by_cases hsw : (startsWithL (pyStrip s) (("http://").data)
      || startsWithL (pyStrip s) (("https://").data)) = false
  · exact ⟨("URL must start with http:// or https://"), by rw [if_pos hsw]⟩
  · have hany : urlDangerous.any (fun dd => containsL (pyLower (pyStrip s)) dd)
        = true := List.any_eq_true.mpr ⟨d, hdmem, hlower⟩
    exact ⟨("Invalid URL - contains dangerous patterns"),
      by rw [if_neg hsw, if_pos hany]⟩

/-- C2 (amended): `validate_url` rejects every input containing `<script>`
or `javascript:`; of the inline event-handler attributes it rejects exactly
the three denylisted substrings onclick, onerror and onload. -/
theorem validate_url_denylist (s : List Char)
    (h : containsL s (("<script>").data) = true ∨
         containsL s (("javascript:").data) = true ∨
         containsL s (("onclick").data) = true ∨
         containsL s (("onerror").data) = true ∨
         containsL s (("onload").data) = true) :
    ∃ e, validate_url s = .error e := by
  rcases h with h | h | h | h | h
  · have hsplit : (("<script>").data : List Char)
        = ("<script").data ++ (">").data := by decide
    rw [hsplit] at h
    exact validate_url_rejects_dangerous (by decide) (containsL_mono_right h)
  · exact validate_url_rejects_dangerous (by decide) h
  · exact validate_url_rejects_dangerous (by decide) h
  · exact validate_url_rejects_dangerous (by decide) h
  · exact validate_url_rejects_dangerous (by decide) h

/-- C2 witness: the amended rejection applied to a concrete javascript: URL. -/
theorem validate_url_denylist_witness :
    ∃ e, validate_url (("javascript:alert(1)").data) = .error e :=
  validate_url_denylist (("javascript:alert(1)").data) (Or.inr (Or.inl (by decide)))

/-- C2 counterexample: this URL contains the inline event-handler attribute
substring onmouseover= (of the form on-word-equals), yet `validate_url`
accepts it and returns it unchanged, refuting the claim that every
event-handler attribute is rejected. -/
theorem validate_url_accepts_event_handler :
    containsL (("http://a.com/?onmouseover=x").data) (("onmouseover=").data)
      = true ∧
    validate_url (("http://a.com/?onmouseover=x").data)
      = .ok (("http://a.com/?onmouseover=x").data) := by
  constructor
  · decide
  · rfl

/-- Character class `[0-9a-f]` under `re.IGNORECASE`. -/
def hexDigit (c : Char) : Bool :=
  reDigit c || (97 ≤ c.toNat && c.toNat ≤ 102) || (65 ≤ c.toNat && c.toNat ≤ 70)

/-- Consume exactly `n` hex digits, returning the rest of the input. -/
def takeHex : Nat → List Char → Option (List Char)
  | 0, l => some l
  | _ + 1, [] => none
  | n + 1, c :: l => if hexDigit c then takeHex n l else none

/-- Consume a literal dash. -/
def dashTok : List Char → Option (List Char)
  | [] => none
  | c :: l => if c = '-' then some l else none

/-- Consume dash-separated groups of hex digits of the given sizes. -/
def consumeGroups : List Nat → List Char → Option (List Char)
  | [], s => some s
  | [n], s => takeHex n s
  | n :: m :: rest, s =>
    match takeHex n s with
    | none => none
    | some s1 =>
      match dashTok s1 with
      | none => none
      | some s2 => consumeGroups (m :: rest) s2

/-- The 8-4-4-4-12 group sizes of the UUID pattern. -/
def uuidGroups : List Nat := [8, 4, 4, 4, 12]

/-- The anchored Python regex of `validate_uuid`: `re.match` with a final
dollar anchor, which in Python matches at the end of the string or just
before a single trailing newline. -/
def uuidRegexMatch (s : List Char) : Bool :=
  match consumeGroups uuidGroups s with
  | some [] => true
  | some (c :: []) => c = nlChar
  | _ => false

/-- `validate_uuid` from `backend/validators.py` (lines 141-159): empty or
non-matching input yields none, a match is returned lower-cased. -/
def validate_uuid (s : List Char) : Option (List Char) :=
  if s = [] then none
  else if uuidRegexMatch s = true then some (pyLower s) else none

/-- The claim's notion of matching the canonical 8-4-4-4-12 hexadecimal
grouping: the groups consume the entire string, nothing left over. -/
def canonicalUUID (s : List Char) : Bool :=
  consumeGroups uuidGroups s == some []

theorem takeHex_split : ∀ (n : Nat) (s r : List Char), takeHex n s = some r →
    ∃ h, s = h ++ r ∧ takeHex n h = some [] := by
  intro n
  induction n with
  | zero =>
    intro s r h
    injection h with h
    exact ⟨[], by rw [h, List.nil_append], rfl⟩
  | succ n ih =>
    intro s r h
    cases s with
    | nil => simp [takeHex] at h
    | cons c t =>
      by_cases hc : hexDigit c = true
      · simp only [takeHex, if_pos hc] at h
        obtain ⟨h2, hs, hh⟩ := ih t r h
        exact ⟨c :: h2, by rw [hs, List.cons_append], by simp [takeHex, hc, hh]⟩
      · simp [takeHex, hc] at h

theorem takeHex_append : ∀ (n : Nat) (h rest t : List Char),
    takeHex n h = some rest → takeHex n (h ++ t) = some (rest ++ t) := by
  intro n
  induction n with
  | zero =>
    intro h rest t hh
    injection hh with hh
    rw [← hh]
    rfl
  | succ n ih =>
    intro h rest t hh
    cases h with
    | nil => simp [takeHex] at hh
    | cons c h' =>
      by_cases hc : hexDigit c = true
      · simp only [takeHex, if_pos hc] at hh
        simp only [List.cons_append, takeHex, if_pos hc]
        exact ih h' rest t hh
      · simp [takeHex, hc] at hh

theorem dashTok_split {s r : List Char} (h : dashTok s = some r) : s = '-' :: r := by
  cases s with
  | nil => simp [dashTok] at h
  | cons c l =>
    by_cases hc : c = '-'
    · subst hc
      simp only [dashTok, if_pos rfl] at h
      injection h with h
      rw [h]
    · simp [dashTok, hc] at h

theorem consumeGroups_split : ∀ (gs : List Nat) (s r : List Char),
    consumeGroups gs s = some r → ∃ h, s = h ++ r ∧ consumeGroups gs h = some [] := by
  intro gs
  induction gs with
  | nil =>
    intro s r h
    injection h with h
    exact ⟨[], by rw [h, List.nil_append], rfl⟩
  | cons n rest ih =>
    intro s r h
    cases rest with
    | nil =>
      obtain ⟨h2, hs, hh⟩ := takeHex_split n s r h
      exact ⟨h2, hs, by simpa [consumeGroups] using hh⟩
    | cons m rest2 =>
      rcases h1 : takeHex n s with _ | s1
      · simp [consumeGroups, h1] at h
      · rcases h2 : dashTok s1 with _ | s2
        · simp [consumeGroups, h1, h2] at h
        · simp only [consumeGroups, h1, h2] at h
          obtain ⟨g3, hs3, hg3⟩ := ih s2 r h
          obtain ⟨g1, hs1, hg1⟩ := takeHex_split n s s1 h1
          have hsd : s1 = '-' :: s2 := dashTok_split h2
          have ht : takeHex n (g1 ++ ('-' :: g3)) = some ([] ++ ('-' :: g3)) :=
            takeHex_append n g1 [] ('-' :: g3) hg1
          simp only [List.nil_append] at ht
          refine ⟨g1 ++ ('-' :: g3), ?_, ?_⟩
          · rw [hs1, hsd, hs3]
            simp only [List.append_assoc, List.cons_append]
          · simp [consumeGroups, ht, dashTok, hg3]

theorem consumeGroups_append : ∀ (gs : List Nat) (h rest t : List Char),
    consumeGroups gs h = some rest → consumeGroups gs (h ++ t) = some (rest ++ t) := by
  intro gs
  induction gs with
  | nil =>
    intro h rest t hh
    injection hh with hh
    rw [← hh]
    rfl
  | cons n rest ih =>
    intro h r t hh
    cases rest with
    | nil => simpa [consumeGroups] using takeHex_append n h r t (by simpa [consumeGroups] using hh)
    | cons m rest2 =>
      rcases h1 : takeHex n h with _ | s1
      · simp [consumeGroups, h1] at hh
      · rcases h2 : dashTok s1 with _ | s2
        · simp [consumeGroups, h1, h2] at hh
        · simp only [consumeGroups, h1, h2] at hh
          have ht := takeHex_append n h s1 t h1
          have hsd : s1 = '-' :: s2 := dashTok_split h2
          have hd2 : dashTok (s1 ++ t) = some (s2 ++ t) := by
            rw [hsd]
            simp [dashTok]
          simp only [consumeGroups, ht, hd2]
          exact ih s2 r t hh

theorem uuidRegexMatch_iff (s : List Char) :
    uuidRegexMatch s = true ↔
    (canonicalUUID s = true ∨
      (s.getLast? = some nlChar ∧ canonicalUUID s.dropLast = true)) := by
  constructor
  · intro h
    unfold uuidRegexMatch at h
    rcases hcg : consumeGroups uuidGroups s with _ | r
    · rw [hcg] at h; cases h
    · rw [hcg] at h
      match r, h with
      | [], _ =>
        exact Or.inl (by simp [canonicalUUID, hcg])
      | [c], h =>
        have hc : c = nlChar := by simpa using h
        subst hc
        obtain ⟨h2, hs, hh⟩ := consumeGroups_split uuidGroups s [nlChar] hcg
        refine Or.inr ⟨?_, ?_⟩
        · rw [hs, List.getLast?_concat]
        · rw [hs, List.dropLast_concat]
          simp [canonicalUUID, hh]
      | c :: d :: rest, h => cases h
  · rintro (h | ⟨hlast, hdrop⟩)
    · have : consumeGroups uuidGroups s = some [] := by
        simpa [canonicalUUID] using h
      unfold uuidRegexMatch
      rw [this]
    · have hne : s ≠ [] := by rintro rfl; cases hlast
      have hlast2 : s.getLast hne = nlChar := by
        have := List.getLast?_eq_getLast s hne
        rw [hlast] at this
        injection this with this
        exact this.symm
      have hsplit : s.dropLast ++ [nlChar] = s := by
        rw [← hlast2]
        exact List.dropLast_append_getLast hne
      have hd : consumeGroups uuidGroups s.dropLast = some [] := by
        simpa [canonicalUUID] using hdrop
      have := consumeGroups_append uuidGroups s.dropLast [] [nlChar] hd
      rw [hsplit, List.nil_append] at this
      unfold uuidRegexMatch
      rw [this]
      simp

/-- C7 (amended): `validate_uuid` accepts exactly the strings matching the
canonical 8-4-4-4-12 hexadecimal grouping either alone or followed by one
trailing newline (Python's dollar anchor), and returns the lower-cased
input — which for a trailing-newline input is not the canonical form. -/
theorem validate_uuid_spec (s t : List Char) :
    validate_uuid s = some t ↔
    ((canonicalUUID s = true ∨
        (s.getLast? = some nlChar ∧ canonicalUUID s.dropLast = true)) ∧
      t = pyLower s) := by
  unfold validate_uuid
  by_cases hs : s = []
  · subst hs
    rw [if_pos rfl]
    constructor
    · intro h; cases h
    · rintro ⟨(h | ⟨h1, h2⟩), -⟩
      · exact absurd h (by decide)
      · cases h1
  · rw [if_neg hs]
    by_cases hm : uuidRegexMatch s = true
    · have hm2 := (uuidRegexMatch_iff s).mp hm
      rw [if_pos hm]
      constructor
      · intro h
        injection h with h
        exact ⟨hm2, h.symm⟩
      · rintro ⟨-, rfl⟩
        rfl
    · rw [if_neg hm]
      constructor
      · intro h; cases h
      · rintro ⟨hd, -⟩
        exact absurd ((uuidRegexMatch_iff s).mpr hd) hm

/-- C7 witness: the amended characterization applied to the upper-case
example UUID, which is accepted and returned lower-cased. -/
theorem validate_uuid_spec_witness :
    validate_uuid (("550E8400-E29B-41D4-A716-446655440000").data)
      = some (("550e8400-e29b-41d4-a716-446655440000").data) :=
  (validate_uuid_spec _ _).mpr ⟨Or.inl (by decide), by decide⟩

/-- C7 counterexample: a canonical UUID followed by one newline character is
accepted by `validate_uuid` (Python's dollar matches before a trailing
newline) and echoed back with the newline, although it does not match the
canonical 8-4-4-4-12 grouping — refuting the claim that exactly the
canonical strings are accepted and only canonical forms returned. -/
theorem validate_uuid_accepts_trailing_newline :
    validate_uuid (("550e8400-e29b-41d4-a716-446655440000").data ++ [nlChar])
      = some (("550e8400-e29b-41d4-a716-446655440000").data ++ [nlChar]) ∧
    canonicalUUID (("550e8400-e29b-41d4-a716-446655440000").data ++ [nlChar])
      = false := by
  constructor <;> decide

/-- C7 second rejected example: the claim's non-example not-a-uuid is
indeed rejected. -/
theorem validate_uuid_rejects_garbage :
    validate_uuid (("not-a-uuid").data) = none := by decide

deriving instance DecidableEq for Except

/-- A JWT claim value: the payloads used by the code hold strings (subject
id, email) and timestamps (exp, iat, modelled as integer seconds). -/
inductive ClaimVal where
  | s (v : String)
  | n (v : Int)
deriving DecidableEq

/-- A JWT payload: a Python dict of claims, insertion-ordered. -/
abbrev Payload := List (String × ClaimVal)

/-- Python `dict.get(k)`. -/
def dictGet (d : Payload) (k : String) : Option ClaimVal :=
  (d.find? (fun p => p.1 == k)).map (fun p => p.2)

/-- Python `dict[k] = v` inside `dict.update`: replace in place if the key
exists, otherwise append. -/
def dictUpdate (d : Payload) (k : String) (v : ClaimVal) : Payload :=
  if d.any (fun p => p.1 == k) then
    d.map (fun p => if p.1 == k then (k, v) else p)
  else d ++ [(k, v)]

/-- A signed JWT, modelled symbolically: the encoded token determines its
payload and carries an HMAC signature over it. -/
structure Token where
  payload : Payload
  sig : Nat × Payload
deriving DecidableEq

/-- Symbolic perfect-MAC model of HMAC-SHA256 with the process secret:
a signature is valid only for the exact secret and payload that produced it. -/
def signPayload (secret : Nat) (p : Payload) : Nat × Payload := (secret, p)

/-- `ACCESS_TOKEN_EXPIRE_MINUTES = 60 * 24` from `backend/auth.py` line 24. -/
def accessTokenExpireMinutes : Int := 60 * 24

/-- The expiry instant computed by `create_access_token`: Python's
`if expires_delta:` is falsy for a zero timedelta, so both a missing and a
zero delta fall back to the 24-hour default. -/
def tokenExpiry (now : Int) (delta : Option Int) : Int :=
  match delta with
  | some d => if d = 0 then now + accessTokenExpireMinutes * 60 else now + d
  | none => now + accessTokenExpireMinutes * 60

/-- `create_access_token` from `backend/auth.py` (lines 146-157): copy the
claims, set exp and iat, sign with the process secret.  Timestamps are
integer seconds; both `utcnow()` calls are the single instant `now`. -/
def create_access_token (secret : Nat) (data : Payload) (now : Int)
    (expiresDelta : Option Int) : Token :=
  ⟨dictUpdate (dictUpdate data ("exp") (.n (tokenExpiry now expiresDelta)))
      ("iat") (.n now),
   signPayload secret
     (dictUpdate (dictUpdate data ("exp") (.n (tokenExpiry now expiresDelta)))
       ("iat") (.n now))⟩

/-- An HTTPException: status code and detail message. -/
structure HTTPError where
  statusCode : Nat
  detail : String
deriving DecidableEq

def unauthorizedToken : HTTPError := ⟨401, "Invalid or expired token"⟩

/-- The exp validation done by `jose.jwt.decode` (modelled from the spec:
the library itself is an external dependency): a present integer exp claim
must lie strictly in the future. -/
def expOk (p : Payload) (now : Int) : Bool :=
  match dictGet p ("exp") with
  | some (.n e) => decide (now < e)
  | _ => true

/-- `decode_token` from `backend/auth.py` (lines 160-170): verify the
signature and expiry, return the payload; any failure is the uniform 401. -/
def decode_token (secret : Nat) (tok : Token) (now : Int) :
    Except HTTPError Payload :=
  if tok.sig = signPayload secret tok.payload ∧ expOk tok.payload now = true then
    .ok tok.payload
  else .error unauthorizedToken

theorem find?_append_none {α : Type} (p : α → Bool) {l₁ : List α} (l₂ : List α)
    (h : l₁.find? p = none) : (l₁ ++ l₂).find? p = l₂.find? p := by
  induction l₁ with
  | nil => rfl
  | cons a t ih =>
    by_cases ha : p a = true
    · rw [List.find?_cons_of_pos t ha] at h
      cases h
    · rw [List.find?_cons_of_neg t ha] at h
      rw [List.cons_append, List.find?_cons_of_neg _ ha]
      exact ih h

theorem find?_append_some {α : Type} (p : α → Bool) {l₁ : List α} (l₂ : List α)
    {x : α} (h : l₁.find? p = some x) : (l₁ ++ l₂).find? p = some x := by
  induction l₁ with
  | nil => cases h
  | cons a t ih =>
    by_cases ha : p a = true
    · rw [List.find?_cons_of_pos t ha] at h
      rw [List.cons_append, List.find?_cons_of_pos _ ha]
      exact h
    · rw [List.find?_cons_of_neg t ha] at h
      rw [List.cons_append, List.find?_cons_of_neg _ ha]
      exact ih h

theorem find?_update_hit (k : String) (v : ClaimVal) :
    ∀ d : Payload, d.any (fun p => p.1 == k) = true →
      (d.map (fun p => if p.1 == k then (k, v) else p)).find? (fun p => p.1 == k)
        = some (k, v) := by
  intro d
  induction d with
  | nil => intro h; simp at h
  | cons a t ih =>
    intro h
    by_cases ha : (a.1 == k) = true
    · rw [List.map_cons, if_pos ha]
      exact List.find?_cons_of_pos _ (by simp)
    · rw [List.map_cons, if_neg ha,
        @List.find?_cons_of_neg _ (fun p => p.1 == k) a _ ha]
      apply ih
      simpa [List.any_cons, ha] using h

theorem find?_update_miss (k k' : String) (hk : k' ≠ k) (v : ClaimVal) :
    ∀ d : Payload,
      (d.map (fun p => if p.1 == k then (k, v) else p)).find? (fun p => p.1 == k')
        = d.find? (fun p => p.1 == k') := by
  intro d
  induction d with
  | nil => rfl
  | cons a t ih =>
    by_cases ha : (a.1 == k) = true
    · have ha' : a.1 = k := by simpa using ha
      rw [List.map_cons, if_pos ha]
      rw [@List.find?_cons_of_neg _ (fun p => p.1 == k') (k, v) _
        (show ¬ ((k, v).1 == k') = true from by
          simp only [beq_iff_eq]; exact Ne.symm hk)]
      rw [@List.find?_cons_of_neg _ (fun p => p.1 == k') a _
        (show ¬ (a.1 == k') = true from by
          simp only [beq_iff_eq, ha']; exact Ne.symm hk)]
      exact ih
    · rw [List.map_cons, if_neg ha]
      by_cases hb : (a.1 == k') = true
      · rw [@List.find?_cons_of_pos _ (fun p => p.1 == k') a _ hb,
          @List.find?_cons_of_pos _ (fun p => p.1 == k') a _ hb]
      · rw [@List.find?_cons_of_neg _ (fun p => p.1 == k') a _ hb,
          @List.find?_cons_of_neg _ (fun p => p.1 == k') a _ hb]
        exact ih

theorem find?_dictUpdate_self (d : Payload) (k : String) (v : ClaimVal) :
    (dictUpdate d k v).find? (fun p => p.1 == k) = some (k, v) := by
  unfold dictUpdate
  by_cases h : d.any (fun p => p.1 == k) = true
  · rw [if_pos h]
    exact find?_update_hit k v d h
  · rw [if_neg h]
    have hnone : d.find? (fun p => p.1 == k) = none := by
      rw [List.find?_eq_none]
      intro x hx
      by_contra hpx
      exact h (List.any_eq_true.mpr ⟨x, hx, by simpa using hpx⟩)
    rw [find?_append_none _ _ hnone, List.find?_cons_of_pos _ (by simp)]

theorem find?_dictUpdate_ne (d : Payload) (k : String) (v : ClaimVal)
    {k' : String} (hk : k' ≠ k) :
    (dictUpdate d k v).find? (fun p => p.1 == k')
      = d.find? (fun p => p.1 == k') := by
  unfold dictUpdate
  by_cases h : d.any (fun p => p.1 == k) = true
  · rw [if_pos h]
    exact find?_update_miss k k' hk v d
  · rw [if_neg h]
    cases hf : d.find? (fun p => p.1 == k') with
    | some x =>
      exact find?_append_some _ _ hf
    | none =>
      rw [find?_append_none _ _ hf,
        @List.find?_cons_of_neg _ (fun p => p.1 == k') (k, v) _
          (show ¬ ((k, v).1 == k') = true from by
            simp only [beq_iff_eq]; exact Ne.symm hk)]
      rfl

theorem dictGet_update_self (d : Payload) (k : String) (v : ClaimVal) :
    dictGet (dictUpdate d k v) k = some v := by
  unfold dictGet
  rw [find?_dictUpdate_self]
  rfl

theorem dictGet_update_ne (d : Payload) (k : String) (v : ClaimVal)
    {k' : String} (hk : k' ≠ k) :
    dictGet (dictUpdate d k v) k' = dictGet d k' := by
  unfold dictGet
  rw [find?_dictUpdate_ne d k v hk]

/-- C4: a token minted by `create_access_token` decodes, at any instant
before its expiry, to exactly the original claims dict updated with the
added exp and iat fields; at or after the expiry instant decoding fails
with the uniform 401 Unauthorized error. -/
theorem token_roundtrip (secret : Nat) (data : Payload) (now : Int)
    (delta : Option Int) (t : Int) :
    (t < tokenExpiry now delta →
      decode_token secret (create_access_token secret data now delta) t
        = .ok (dictUpdate (dictUpdate data ("exp") (.n (tokenExpiry now delta)))
            ("iat") (.n now))) ∧
    (tokenExpiry now delta ≤ t →
      decode_token secret (create_access_token secret data now delta) t
        = .error unauthorizedToken) := by
  have hexp : dictGet (dictUpdate (dictUpdate data ("exp")
      (.n (tokenExpiry now delta))) ("iat") (.n now)) ("exp")
      = some (.n (tokenExpiry now delta)) := by
    rw [dictGet_update_ne _ _ _ (by decide), dictGet_update_self]
  constructor
  · intro ht
    have hcond : (create_access_token secret data now delta).sig
        = signPayload secret (create_access_token secret data now delta).payload
        ∧ expOk (create_access_token secret data now delta).payload t = true := by
      refine ⟨rfl, ?_⟩
      show expOk (dictUpdate (dictUpdate data ("exp")
        (.n (tokenExpiry now delta))) ("iat") (.n now)) t = true
      unfold expOk
      rw [hexp]
      simpa using ht
    unfold decode_token
    rw [if_pos hcond]
    rfl
  · intro ht
    have hncond : ¬ ((create_access_token secret data now delta).sig
        = signPayload secret (create_access_token secret data now delta).payload
        ∧ expOk (create_access_token secret data now delta).payload t = true) := by
      rintro ⟨-, h2⟩
      have h3 : expOk (dictUpdate (dictUpdate data ("exp")
          (.n (tokenExpiry now delta))) ("iat") (.n now)) t = true := h2
      unfold expOk at h3
      rw [hexp] at h3
      simp only [decide_eq_true_eq] at h3
      omega
    unfold decode_token
    rw [if_neg hncond]

/-- C4 witness: the round trip at a concrete claims dict, secret and clock:
decoding one second in succeeds, decoding at the expiry instant fails. -/
theorem token_roundtrip_witness :
    decode_token 7 (create_access_token 7 [("sub", ClaimVal.s ("u1"))] 0 none) 1
      = .ok [("sub", ClaimVal.s ("u1")), ("exp", ClaimVal.n 86400),
          ("iat", ClaimVal.n 0)] ∧
    decode_token 7 (create_access_token 7 [("sub", ClaimVal.s ("u1"))] 0 none) 86400
      = .error unauthorizedToken := by
  constructor
  · have h := (token_roundtrip 7 [("sub", ClaimVal.s ("u1"))] 0 none 1).1
      (by decide)
    rw [h]
    decide
  · exact (token_roundtrip 7 [("sub", ClaimVal.s ("u1"))] 0 none 86400).2 (by decide)

/-- A users-table row as stored and returned by the table store: column
name to value, string-valued for the columns this core touches. -/
abbrev Row := List (String × String)

/-- Python `dict.get(k)` on a row. -/
def rowGet (r : Row) (k : String) : Option String :=
  (r.find? (fun p => p.1 == k)).map (fun p => p.2)

/-- Python `dict.get(k, default)` on a row. -/
def rowGetD (r : Row) (k d : String) : String := (rowGet r k).getD d

/-- Python `dict.pop(k, None)`: remove the key (rows have unique keys). -/
def rowPop (r : Row) (k : String) : Row := r.eraseP (fun p => p.1 == k)

/-- Whether a response row still carries the given column. -/
def rowHasKey (r : Row) (k : String) : Bool := r.any (fun p => p.1 == k)

/-- The state a request sees: the process signing secret, the users table
of the external store, and the current clock instant. -/
structure ServerState where
  secret : Nat
  users : List Row
  now : Int

/-- Python falsiness of a claim value (`if not user_id`): the empty string
and the integer zero are falsy. -/
def claimFalsy : ClaimVal → Bool
  | .s v => v == ""
  | .n i => i == 0

/-- The store's `.eq(id, user_id)` filter: a row matches a string subject
exactly when its id column equals it; a numeric subject matches no row of
the uuid-keyed users table. -/
def rowSubEq (r : Row) : ClaimVal → Bool
  | .s uid => rowGet r ("id") == some uid
  | .n _ => false

/-- `get_current_user` from `backend/auth.py` (lines 177-203): decode the
bearer token, read the subject claim, fetch the user row by id; the row is
returned as-is (`select *`, no column stripped). -/
def get_current_user (st : ServerState) (tok : Token) : Except HTTPError Row :=
  match decode_token st.secret tok st.now with
  | .error e => .error e
  | .ok payload =>
    match dictGet payload ("sub") with
    | none => .error ⟨401, "Invalid token payload"⟩
    | some v =>
      if claimFalsy v then .error ⟨401, "Invalid token payload"⟩
      else
        match st.users.find? (fun r => rowSubEq r v) with
        | none => .error ⟨401, "User not found"⟩
        | some r => .ok r

/-- `get_current_user_optional` from `backend/auth.py` (lines 206-217):
no credentials yield none; any `HTTPException` from `get_current_user`
is caught and also yields none. -/
def get_current_user_optional (st : ServerState) (cred : Option Token) :
    Option Row :=
  match cred with
  | none => none
  | some tok =>
    match get_current_user st tok with
    | .ok u => some u
    | .error _ => none

/-- The `/me` response envelope of `get_profile` in
`backend/routes/auth.py` (lines 49-56). -/
structure ProfileResp where
  success : Bool
  data : Row
deriving DecidableEq

/-- `get_profile` from `backend/routes/auth.py` (lines 49-56): wrap the
authenticated user's row, unmodified, in the success envelope. -/
def get_profile (st : ServerState) (tok : Token) : Except HTTPError ProfileResp :=
  match get_current_user st tok with
  | .error e => .error e
  | .ok u => .ok ⟨true, u⟩

/-- The token envelope returned by register and login
(`TokenResponse` in `backend/auth.py` lines 101-105). -/
structure TokenResp where
  accessToken : Token
  tokenType : String
  expiresIn : Int
  user : Row
deriving DecidableEq

/-- `register_user` from `backend/auth.py` (lines 239-288): reject a
duplicate email, hash the password (`hashF` models bcrypt), insert the row
(the store contributes the generated id), mint a token, and pop the
password hash from the returned user. -/
def register_user (st : ServerState) (hashF : String → String) (newId : String)
    (email password name role : String) : Except HTTPError TokenResp :=
  if st.users.any (fun r => rowGet r ("email") == some email) then
    .error ⟨400, "Email already registered"⟩
  else
    .ok ⟨create_access_token st.secret
        [("sub", .s newId), ("email", .s email)] st.now none,
      "bearer", accessTokenExpireMinutes * 60,
      rowPop [("email", email), ("name", name), ("role", role),
        ("password_hash", hashF password), ("id", newId)] ("password_hash")⟩

/-- `login_user` from `backend/auth.py` (lines 291-329): look the user up
by email; a missing row and a failed password check (`verify` models
bcrypt verification) raise the same generic 401; otherwise mint a token
and pop the password hash from the returned user. -/
def login_user (st : ServerState) (verify : String → String → Bool)
    (email password : String) : Except HTTPError TokenResp :=
  match st.users.find? (fun r => rowGet r ("email") == some email) with
  | none => .error ⟨401, "Invalid email or password"⟩
  | some user =>
    if verify password (rowGetD user ("password_hash") ("")) = false then
      .error ⟨401, "Invalid email or password"⟩
    else
      match rowGet user ("id"), rowGet user ("email") with
      | some uid, some uem =>
        .ok ⟨create_access_token st.secret
            [("sub", .s uid), ("email", .s uem)] st.now none,
          "bearer", accessTokenExpireMinutes * 60,
          rowPop user ("password_hash")⟩
      | _, _ => .error ⟨500, "Internal Server Error"⟩

/-- C3: a login for an email that is not on file and a login for an email
that is on file but with a failing password check produce the very same
error value — status 401 with the message Invalid email or password — so
the response does not reveal whether the email exists. -/
theorem login_enumeration_safe (st : ServerState)
    (verify : String → String → Bool) (email password : String) :
    (st.users.find? (fun r => rowGet r ("email") == some email) = none →
      login_user st verify email password
        = .error ⟨401, "Invalid email or password"⟩) ∧
    (∀ u, st.users.find? (fun r => rowGet r ("email") == some email) = some u →
      verify password (rowGetD u ("password_hash") ("")) = false →
      login_user st verify email password
        = .error ⟨401, "Invalid email or password"⟩) := by
  constructor
  · intro h
    unfold login_user
    rw [h]
  · intro u hu hv
    unfold login_user
    rw [hu]
    simp [hv]

/-- C3 witness: the two failing logins against a one-user store with a
rejecting password check both evaluate to the identical error. -/
theorem login_enumeration_safe_witness :
    login_user ⟨7, [[("id", "u1"), ("email", "a@b.com"),
        ("password_hash", "h1")]], 0⟩ (fun _ _ => false) ("missing@b.com") ("Pw")
      = .error ⟨401, "Invalid email or password"⟩ ∧
    login_user ⟨7, [[("id", "u1"), ("email", "a@b.com"),
        ("password_hash", "h1")]], 0⟩ (fun _ _ => false) ("a@b.com") ("Pw")
      = .error ⟨401, "Invalid email or password"⟩ :=
  ⟨(login_enumeration_safe ⟨7, [[("id", "u1"), ("email", "a@b.com"),
        ("password_hash", "h1")]], 0⟩ (fun _ _ => false) ("missing@b.com")
      ("Pw")).1 (by decide),
   (login_enumeration_safe ⟨7, [[("id", "u1"), ("email", "a@b.com"),
        ("password_hash", "h1")]], 0⟩ (fun _ _ => false) ("a@b.com")
      ("Pw")).2 [("id", "u1"), ("email", "a@b.com"), ("password_hash", "h1")]
      (by decide) rfl⟩

/-- C8: `get_current_user_optional` yields none exactly when no token is
presented or `get_current_user` fails with some auth error (bad signature,
expiry, missing subject, missing user row all surface there as
`HTTPError`s); being `Option`-valued it never propagates the error. -/
theorem authenticate_optional_none (st : ServerState) (cred : Option Token) :
    get_current_user_optional st cred = none ↔
    (cred = none ∨ ∃ c e, cred = some c ∧ get_current_user st c = .error e) := by
  cases cred with
  | none => simp [get_current_user_optional]
  | some c =>
    show (match get_current_user st c with
      | .ok u => some u
      | .error _ => none) = none ↔ _
    cases hg : get_current_user st c with
    | ok u =>
      simp only []
      constructor
      · intro h
        cases h
      · rintro (h | ⟨c', e, hc, he⟩)
        · cases h
        · injection hc with hc
          subst hc
          rw [hg] at he
          cases he
    | error e =>
      simp only []
      constructor
      · intro _
        exact Or.inr ⟨c, e, rfl, hg⟩
      · intro _
        trivial

/-- C8 witness: the characterization applied with no credentials. -/
theorem authenticate_optional_none_witness :
    get_current_user_optional ⟨0, [], 0⟩ none = none :=
  (authenticate_optional_none ⟨0, [], 0⟩ none).mpr (Or.inl rfl)

/-- The stored row of the user u1, password hash included, as
`select *` returns it. -/
def c1Row : Row := [("id", "u1"), ("email", "a@b.com"), ("name", "Ann"),
  ("role", "student"), ("password_hash", "bcrypt-digest-xyz")]

def c1State : ServerState := ⟨7, [c1Row], 0⟩

def c1Token : Token := create_access_token 7
  [("sub", ClaimVal.s ("u1")), ("email", ClaimVal.s ("a@b.com"))] 0 none

/-- C1 (violated by the code): `get_current_user` selects the whole row and
`get_profile` returns it unmodified, so the `/me` response payload carries
the credential's password hash — whereas `register_user` does strip the
hash from its response. -/
theorem get_profile_returns_password_hash :
    get_profile c1State c1Token = .ok ⟨true, c1Row⟩ ∧
    rowHasKey c1Row ("password_hash") = true ∧
    (∃ tr, register_user ⟨7, ([] : List Row), 0⟩ (fun _ => ("h2")) ("u2")
        ("b@c.com") ("Abcdefg1") ("Bob") ("student") = .ok tr ∧
      rowHasKey tr.user ("password_hash") = false) := by
  refine ⟨by decide, by decide, ?_⟩
  refine ⟨_, rfl, ?_⟩
  decide
